import Mathlib

/-!
Verification of the llm-simulator request pipeline.

This file gives a shallow embedding, in Lean, of the core components of the
llm-simulator repository (response generator tokenization, token-bucket rate
limiter, circuit breaker, latency simulator, simulation engine request flow,
Anthropic SSE streaming renderer, and API-key auth middleware), and proves or
refutes the specification claims about them.

Conventions of the embedding:
- Rust machine integers are modelled as Nat, with an explicit wrap at 2^32
  where u32 overflow can matter.
- Durations and Instants are modelled as Nat values (nanoseconds for the
  token bucket, seconds-granularity values for the circuit breaker use their
  source units, microseconds for latency schedules); elapsed time becomes an
  explicit now parameter threaded through the operations.
- Floating-point random sampling (the rand_distr primitives) is abstracted as
  an explicit function parameter: the structure above it (sampler cloning,
  re-seeding, schedule construction) is translated literally from the source.
- Strings are List Char where byte-level behavior matters.
-/

namespace LlmSim

/-! ## Response generator: tokenize (src/src/engine/generator.rs) -/

/-- Rust char::is_ascii_punctuation: the four ASCII punctuation ranges. -/
def isAsciiPunct (c : Char) : Bool :=
  (33 ≤ c.toNat && c.toNat ≤ 47) || (58 ≤ c.toNat && c.toNat ≤ 64) ||
  (91 ≤ c.toNat && c.toNat ≤ 96) || (123 ≤ c.toNat && c.toNat ≤ 126)

/-- Rust char::is_whitespace: the Unicode White_Space code points. -/
def isRustWhitespace (c : Char) : Bool :=
  let n := c.toNat
  (9 ≤ n && n ≤ 13) || n == 32 || n == 133 || n == 160 || n == 5760 ||
  (8192 ≤ n && n ≤ 8202) || n == 8232 || n == 8233 || n == 8239 ||
  n == 8287 || n == 12288

/-- UTF-8 byte length of a character sequence (Rust String::len). -/
def utf8Len (cs : List Char) : Nat := (cs.map Char.utf8Size).sum

/-- Flush condition of ResponseGenerator::tokenize: whitespace, ASCII
punctuation, or the current piece reaching 4 bytes. -/
def shouldFlush (c : Char) (cur : List Char) : Bool :=
  isRustWhitespace c || isAsciiPunct c || decide (4 ≤ utf8Len cur)

/-- Loop body of ResponseGenerator::tokenize: push each char onto the current
piece and flush the piece at whitespace, ASCII punctuation, or once the piece
reaches 4 bytes; a non-empty leftover piece is flushed at the end. -/
def tokenizeAux : List Char → List Char → List (List Char)
  | [], current => if current.isEmpty then [] else [current]
  | c :: rest, current =>
    let cur := current ++ [c]
    if shouldFlush c cur then
      if cur.isEmpty then tokenizeAux rest cur else cur :: tokenizeAux rest []
    else
      tokenizeAux rest cur

/-- ResponseGenerator::tokenize from src/src/engine/generator.rs. -/
def tokenize (text : List Char) : List (List Char) := tokenizeAux text []

theorem tokenizeAux_flatten (cs : List Char) :
    ∀ current : List Char, (tokenizeAux cs current).flatten = current ++ cs := by
  induction cs with
  | nil =>
    intro current
    by_cases h : current.isEmpty
    · simp [tokenizeAux, h, List.isEmpty_iff.mp h]
    · simp [tokenizeAux, h]
  | cons c rest ih =>
    intro current
    have hne : (current ++ [c]).isEmpty = false := by simp
    by_cases hflush : shouldFlush c (current ++ [c]) = true
    · simp [tokenizeAux, hflush, hne, ih]
    · simp [tokenizeAux, hflush, ih]

theorem tokenizeAux_ne_nil (cs : List Char) :
    ∀ current t, t ∈ tokenizeAux cs current → t ≠ [] := by
  induction cs with
  | nil =>
    intro current t ht
    by_cases h : current.isEmpty
    · simp [tokenizeAux, h] at ht
    · simp [tokenizeAux, h] at ht
      subst ht
      exact fun hnil => by simp [hnil] at h
  | cons c rest ih =>
    intro current t ht
    have hne : (current ++ [c]).isEmpty = false := by simp
    by_cases hflush : shouldFlush c (current ++ [c]) = true
    · simp only [tokenizeAux, hflush, if_true, hne, Bool.false_eq_true, if_false] at ht
      rcases List.mem_cons.mp ht with h1 | h2
      · subst h1; simp
      · exact ih [] t h2
    · simp only [tokenizeAux, hflush, Bool.false_eq_true, if_false] at ht
      exact ih (current ++ [c]) t ht

/-- C10: concatenating the pieces returned by tokenize(text) in order
reproduces text exactly, and every returned piece is non-empty. -/
theorem tokenize_flatten_eq_and_pieces_ne_nil (text : List Char) :
    (tokenize text).flatten = text ∧ ∀ t ∈ tokenize text, t ≠ [] :=
  ⟨by simpa using tokenizeAux_flatten text [], fun t ht => tokenizeAux_ne_nil text [] t ht⟩

/-! ## Token bucket (src/src/security/rate_limit.rs)

The bucket's u32 token counter is a Nat; the refill amount, computed in the
source as a float of elapsed seconds times refill_rate cast to u32, is passed
in explicitly (newTokens); the 1 ms elapsed guard and the min-with-capacity
clamp are translated literally. Instants are nanoseconds since bucket start.
The atomic compare-exchange loops always succeed in this sequential model. -/

structure TokenBucket where
  capacity : Nat
  tokens : Nat
  lastRefill : Nat
deriving DecidableEq, Repr

/-- TokenBucket::new: starts full, last_refill at 0. The requests_per_minute
argument only feeds the float refill_rate, which is abstracted here. -/
def TokenBucket.new (capacity _requestsPerMinute : Nat) : TokenBucket :=
  { capacity := capacity, tokens := capacity, lastRefill := 0 }

/-- TokenBucket::refill: skip when less than 1 ms elapsed or no token accrued;
otherwise advance last_refill and clamp tokens at capacity. The u32 addition
wraps at 2^32 as in release-mode Rust. -/
def TokenBucket.refill (b : TokenBucket) (nowNanos newTokens : Nat) : TokenBucket :=
  if nowNanos - b.lastRefill < 1000000 then b
  else if newTokens = 0 then b
  else { b with lastRefill := nowNanos,
                tokens := min ((b.tokens + newTokens) % 2 ^ 32) b.capacity }

/-- TokenBucket::try_consume: refill lazily, then compare and decrement. -/
def TokenBucket.tryConsume (b : TokenBucket) (count nowNanos newTokens : Nat) :
    Bool × TokenBucket :=
  let b' := b.refill nowNanos newTokens
  if b'.tokens < count then (false, b')
  else (true, { b' with tokens := b'.tokens - count })

/-- One bucket operation with its timing and (abstracted) refill amount. -/
inductive BucketOp where
  | consume (count nowNanos newTokens : Nat)
  | refillOp (nowNanos newTokens : Nat)
deriving DecidableEq, Repr

def TokenBucket.step (b : TokenBucket) : BucketOp → TokenBucket
  | .consume c now new => (b.tryConsume c now new).2
  | .refillOp now new => b.refill now new

def TokenBucket.run (b : TokenBucket) : List BucketOp → TokenBucket
  | [] => b
  | op :: ops => (b.step op).run ops

theorem TokenBucket.refill_capacity (b : TokenBucket) (now new : Nat) :
    (b.refill now new).capacity = b.capacity := by
  unfold TokenBucket.refill
  split
  · rfl
  · split <;> rfl

theorem TokenBucket.refill_tokens_le (b : TokenBucket) (now new : Nat)
    (h : b.tokens ≤ b.capacity) : (b.refill now new).tokens ≤ b.capacity := by
  unfold TokenBucket.refill
  split
  · exact h
  · split
    · exact h
    · exact min_le_right _ _

theorem TokenBucket.step_capacity (b : TokenBucket) (op : BucketOp) :
    (b.step op).capacity = b.capacity := by
  cases op with
  | consume c now new =>
    show (b.tryConsume c now new).2.capacity = b.capacity
    unfold TokenBucket.tryConsume
    dsimp only
    split
    · exact b.refill_capacity now new
    · exact b.refill_capacity now new
  | refillOp now new => exact b.refill_capacity now new

theorem TokenBucket.step_tokens_le (b : TokenBucket) (op : BucketOp)
    (h : b.tokens ≤ b.capacity) : (b.step op).tokens ≤ (b.step op).capacity := by
  rw [b.step_capacity op]
  cases op with
  | consume c now new =>
    show (b.tryConsume c now new).2.tokens ≤ b.capacity
    unfold TokenBucket.tryConsume
    dsimp only
    split
    · exact b.refill_tokens_le now new h
    · exact le_trans (Nat.sub_le _ _) (b.refill_tokens_le now new h)
  | refillOp now new => exact b.refill_tokens_le now new h

theorem TokenBucket.run_inv (ops : List BucketOp) :
    ∀ b : TokenBucket, b.tokens ≤ b.capacity →
      (b.run ops).tokens ≤ (b.run ops).capacity := by
  induction ops with
  | nil => intro b h; exact h
  | cons op rest ih =>
    intro b h
    exact ih (b.step op) (b.step_tokens_le op h)

theorem TokenBucket.run_capacity (ops : List BucketOp) :
    ∀ b : TokenBucket, (b.run ops).capacity = b.capacity := by
  induction ops with
  | nil => intro b; rfl
  | cons op rest ih =>
    intro b
    rw [show b.run (op :: rest) = (b.step op).run rest from rfl, ih, b.step_capacity]

/-- C6: over every sequence of try_consume and refill operations from a fresh
bucket, the token count stays within [0, capacity] (the lower bound is
inherent to the Nat counter); refill never raises the count above capacity;
and try_consume(n) fails without changing the (lazily refilled) count
whenever the current count is below n. -/
theorem token_bucket_invariant (cap rpm : Nat) (ops : List BucketOp) :
    ((TokenBucket.new cap rpm).run ops).tokens ≤ cap
    ∧ (∀ (b : TokenBucket) (now new : Nat), b.tokens ≤ b.capacity →
        (b.refill now new).tokens ≤ b.capacity)
    ∧ (∀ (b : TokenBucket) (count now new : Nat),
        (b.refill now new).tokens < count →
        b.tryConsume count now new = (false, b.refill now new)) := by
  refine ⟨?_, ?_, ?_⟩
  · have h := TokenBucket.run_inv ops (TokenBucket.new cap rpm) (le_refl cap)
    rwa [TokenBucket.run_capacity] at h
  · exact fun b now new h => b.refill_tokens_le now new h
  · intro b count now new hlt
    unfold TokenBucket.tryConsume
    dsimp only
    rw [if_pos hlt]

/-- Witness for C6 at a concrete bucket and operation sequence. -/
theorem token_bucket_invariant_witness :
    ((TokenBucket.new 5 60).run
        [BucketOp.consume 2 0 0, BucketOp.refillOp 2000000 9]).tokens ≤ 5
    ∧ (TokenBucket.mk 5 1 0).tryConsume 3 0 0 = (false, TokenBucket.mk 5 1 0) := by
  have h := token_bucket_invariant 5 60 [BucketOp.consume 2 0 0, BucketOp.refillOp 2000000 9]
  exact ⟨h.1, h.2.2 (TokenBucket.mk 5 1 0) 3 0 0 (by decide)⟩

/-! ## Circuit breaker (src/src/engine/chaos.rs)

Instants are Nat nanoseconds; opened.elapsed() at probe time now becomes
now - opened; Duration::from_secs(s) becomes s * 1000000000. -/

structure CircuitBreakerConfig where
  enabled : Bool
  failureThreshold : Nat
  failureWindowSecs : Nat
  recoveryTimeoutSecs : Nat
  successThreshold : Nat
  perModel : Bool
deriving DecidableEq, Repr

def CircuitBreakerConfig.failureWindow (c : CircuitBreakerConfig) : Nat :=
  c.failureWindowSecs * 1000000000

def CircuitBreakerConfig.recoveryTimeout (c : CircuitBreakerConfig) : Nat :=
  c.recoveryTimeoutSecs * 1000000000

inductive CircuitState where
  | closed
  | opened
  | halfOpen
deriving DecidableEq, Repr

structure CircuitBreaker where
  config : CircuitBreakerConfig
  state : CircuitState
  failureCount : Nat
  successCount : Nat
  lastFailure : Option Nat
  openedAt : Option Nat
deriving DecidableEq, Repr

def CircuitBreaker.new (config : CircuitBreakerConfig) : CircuitBreaker :=
  { config := config, state := .closed, failureCount := 0, successCount := 0,
    lastFailure := none, openedAt := none }

/-- CircuitBreaker::is_open, which also performs the time-based open to
half-open transition; returns the answer and the updated breaker. -/
def CircuitBreaker.isOpen (b : CircuitBreaker) (now : Nat) : Bool × CircuitBreaker :=
  match b.state with
  | .opened =>
    match b.openedAt with
    | some opened =>
      if b.config.recoveryTimeout ≤ now - opened then
        (false, { b with state := .halfOpen, successCount := 0 })
      else (true, b)
    | none => (true, b)
  | .halfOpen => (false, b)
  | .closed => (false, b)

/-- CircuitBreaker::record_failure: stamp last_failure with now, then branch
on the state exactly as the source does. -/
def CircuitBreaker.recordFailure (b : CircuitBreaker) (now : Nat) : CircuitBreaker :=
  let b := { b with lastFailure := some now }
  match b.state with
  | .closed =>
    let b := { b with failureCount := b.failureCount + 1 }
    if b.config.failureThreshold ≤ b.failureCount then
      match b.lastFailure with
      | some last =>
        if now - last ≤ b.config.failureWindow then
          { b with state := .opened, openedAt := some now }
        else { b with failureCount := 1 }
      | none => b
    else b
  | .halfOpen => { b with state := .opened, openedAt := some now }
  | .opened => b

/-- CircuitBreaker::record_success. -/
def CircuitBreaker.recordSuccess (b : CircuitBreaker) : CircuitBreaker :=
  match b.state with
  | .closed => { b with failureCount := 0 }
  | .halfOpen =>
    let b := { b with successCount := b.successCount + 1 }
    if b.config.successThreshold ≤ b.successCount then
      { b with state := .closed, failureCount := 0, successCount := 0,
               openedAt := none }
    else b
  | .opened => b

/-- C7: the circuit-breaker transition rules. In closed, a failure increments
the count; reaching the threshold (the just-recorded failure is at distance 0
from now, hence inside the window) opens the breaker and records opened_at,
and below the threshold the breaker stays closed with the incremented count.
In half-open a failure reopens immediately; success_threshold successes reset
everything to closed, fewer only increment the success count. A success in
closed resets the failure count. Open moves to half-open only once
recovery_timeout has elapsed since opened_at. -/
theorem circuit_breaker_transitions (b : CircuitBreaker) (now : Nat) :
    (b.state = .closed → b.config.failureThreshold ≤ b.failureCount + 1 →
      (b.recordFailure now).state = .opened
      ∧ (b.recordFailure now).openedAt = some now
      ∧ (b.recordFailure now).failureCount = b.failureCount + 1)
    ∧ (b.state = .closed → b.failureCount + 1 < b.config.failureThreshold →
      (b.recordFailure now).state = .closed
      ∧ (b.recordFailure now).failureCount = b.failureCount + 1)
    ∧ (b.state = .halfOpen →
      (b.recordFailure now).state = .opened
      ∧ (b.recordFailure now).openedAt = some now)
    ∧ (b.state = .halfOpen → b.config.successThreshold ≤ b.successCount + 1 →
      b.recordSuccess.state = .closed ∧ b.recordSuccess.failureCount = 0
      ∧ b.recordSuccess.successCount = 0 ∧ b.recordSuccess.openedAt = none)
    ∧ (b.state = .halfOpen → b.successCount + 1 < b.config.successThreshold →
      b.recordSuccess.state = .halfOpen
      ∧ b.recordSuccess.successCount = b.successCount + 1)
    ∧ (b.state = .closed → b.recordSuccess.failureCount = 0
      ∧ b.recordSuccess.state = .closed)
    ∧ (b.state = .opened → (b.isOpen now).2.state = .halfOpen →
      ∃ t, b.openedAt = some t ∧ b.config.recoveryTimeout ≤ now - t) := by
  refine ⟨?_, ?_, ?_, ?_, ?_, ?_, ?_⟩
  · intro hs hth
    refine ⟨?_, ?_, ?_⟩ <;> simp [CircuitBreaker.recordFailure, hs, hth]
  · intro hs hth
    have hth2 : ¬ b.config.failureThreshold ≤ b.failureCount + 1 := Nat.not_le.mpr hth
    refine ⟨?_, ?_⟩ <;> simp [CircuitBreaker.recordFailure, hs, hth2]
  · intro hs
    refine ⟨?_, ?_⟩ <;> simp [CircuitBreaker.recordFailure, hs]
  · intro hs hth
    refine ⟨?_, ?_, ?_, ?_⟩ <;> simp [CircuitBreaker.recordSuccess, hs, hth]
  · intro hs hth
    have hth2 : ¬ b.config.successThreshold ≤ b.successCount + 1 := Nat.not_le.mpr hth
    refine ⟨?_, ?_⟩ <;> simp [CircuitBreaker.recordSuccess, hs, hth2]
  · intro hs
    refine ⟨?_, ?_⟩ <;> simp [CircuitBreaker.recordSuccess, hs]
  · intro hs htrans
    rcases hopen : b.openedAt with _ | t
    · exfalso
      simp [CircuitBreaker.isOpen, hs, hopen] at htrans
    · by_cases hrec : b.config.recoveryTimeout ≤ now - t
      · exact ⟨t, rfl, hrec⟩
      · exfalso
        simp [CircuitBreaker.isOpen, hs, hopen, hrec] at htrans

/-- Witness for C7 at a concrete breaker: two in-window failures at
threshold 2 open the breaker and record opened_at. -/
theorem circuit_breaker_transitions_witness :
    let cfg : CircuitBreakerConfig :=
      { enabled := true, failureThreshold := 2, failureWindowSecs := 60,
        recoveryTimeoutSecs := 1, successThreshold := 1, perModel := false }
    let b1 := (CircuitBreaker.new cfg).recordFailure 10
    (b1.recordFailure 20).state = CircuitState.opened
    ∧ (b1.recordFailure 20).openedAt = some 20 := by
  intro cfg b1
  have h := (circuit_breaker_transitions b1 20).1 (by decide) (by decide)
  exact ⟨h.1, h.2.1⟩

/-! ## Latency simulator (src/src/latency/mod.rs and sampler.rs)

The rand_distr numeric sampling primitive (sample_with_rng), the PRNG seeding
(StdRng::seed_from_u64) and the f64 milliseconds-to-Duration conversion
(base_ms * multiplier * 1000, clamped at zero, truncated to u64 micros) are
abstracted into a SamplerSemantics bundle over arbitrary distribution, RNG
state and value types; everything above them — the sampler cloning its RNG,
the simulator re-creating a sampler per call, profile resolution, schedule
construction — is translated literally from the source. Durations are Nat
microseconds. The from_entropy RNG of an unseeded simulator is modelled as an
explicit entropy argument (a fresh one per create_sampler call). -/

/-- Abstracted numeric layer under the latency simulator. -/
structure SamplerSemantics (D R V : Type) where
  sampleWithRng : D → R → V × R
  seedFromU64 : Nat → R
  toMicros : V → Nat
  overheadMul : Nat → Nat

/-- DistributionSampler from src/src/latency/sampler.rs: holds an RNG state. -/
structure DistributionSampler (R : Type) where
  rng : R

/-- DistributionSampler::sample: the source clones the held RNG into a local,
draws one value with the clone and discards the advanced clone, so the held
state never advances. -/
def DistributionSampler.sample {D R V : Type} (sem : SamplerSemantics D R V)
    (s : DistributionSampler R) (dist : D) : V :=
  (sem.sampleWithRng dist s.rng).1

structure LatencyProfileM (D : Type) where
  ttft : D
  itl : D
  overheadMicros : Nat

structure LatencyConfigM (D : Type) where
  enabled : Bool
  profiles : List (String × LatencyProfileM D)
  defaultProfileName : String

/-- LatencyConfig::get_profile. -/
def LatencyConfigM.getProfile {D : Type} (c : LatencyConfigM D) (name : String) :
    Option (LatencyProfileM D) :=
  (c.profiles.find? (fun p => p.1 == name)).map (fun p => p.2)

/-- Profile resolution in sample_ttft / sample_itl / overhead: the caller's
profile if it exists, otherwise the configured default profile. The source
panics when the default name is absent (guaranteed present after config
validation); that case is none here. -/
def LatencyConfigM.resolveProfile {D : Type} (c : LatencyConfigM D)
    (name : Option String) : Option (LatencyProfileM D) :=
  match name.bind (fun n => c.getProfile n) with
  | some p => some p
  | none => c.getProfile c.defaultProfileName

structure LatencySimulator (D : Type) where
  config : LatencyConfigM D
  rngSeed : Option Nat

/-- LatencySimulator::create_sampler: a fresh sampler from the fixed seed when
seeded, else from entropy. -/
def LatencySimulator.createSampler {D R V : Type} (sem : SamplerSemantics D R V)
    (sim : LatencySimulator D) (entropy : R) : DistributionSampler R :=
  match sim.rngSeed with
  | some seed => { rng := sem.seedFromU64 seed }
  | none => { rng := entropy }

/-- LatencySimulator::sample_ttft. -/
def LatencySimulator.sampleTtft {D R V : Type} (sem : SamplerSemantics D R V)
    (sim : LatencySimulator D) (entropy : R) (profileName : Option String) : Nat :=
  if !sim.config.enabled then 0
  else
    match sim.config.resolveProfile profileName with
    | none => 0
    | some p => sem.toMicros ((sim.createSampler sem entropy).sample sem p.ttft)

/-- LatencySimulator::sample_itl. -/
def LatencySimulator.sampleItl {D R V : Type} (sem : SamplerSemantics D R V)
    (sim : LatencySimulator D) (entropy : R) (profileName : Option String) : Nat :=
  if !sim.config.enabled then 0
  else
    match sim.config.resolveProfile profileName with
    | none => 0
    | some p => sem.toMicros ((sim.createSampler sem entropy).sample sem p.itl)

/-- LatencySimulator::overhead. -/
def LatencySimulator.overheadOf {D R V : Type} (sem : SamplerSemantics D R V)
    (sim : LatencySimulator D) (profileName : Option String) : Nat :=
  if !sim.config.enabled then 0
  else
    match sim.config.resolveProfile profileName with
    | none => 0
    | some p => sem.overheadMul p.overheadMicros

structure LatencySchedule where
  ttft : Nat
  overhead : Nat
  tokenDelays : List Nat
deriving DecidableEq, Repr

/-- LatencySchedule::total_duration. -/
def LatencySchedule.totalDuration (s : LatencySchedule) : Nat :=
  s.ttft + s.overhead + s.tokenDelays.sum

/-- LatencySimulator::generate_schedule: sample TTFT and overhead once, then
call sample_itl once per token (each call re-creates the sampler; entropy i+1
models the fresh OS entropy the i-th unseeded call would get). -/
def LatencySimulator.generateSchedule {D R V : Type} (sem : SamplerSemantics D R V)
    (sim : LatencySimulator D) (entropy : Nat → R) (tokenCount : Nat)
    (profileName : Option String) : LatencySchedule :=
  { ttft := sim.sampleTtft sem (entropy 0) profileName
    overhead := sim.overheadOf sem profileName
    tokenDelays := (List.range tokenCount).map
      (fun i => sim.sampleItl sem (entropy (i + 1)) profileName) }

/-- Successive draws of one PRNG stream: thread the RNG state through each
draw. -/
def sampleStream {D R V : Type} (sem : SamplerSemantics D R V) (dist : D) :
    Nat → R → List V
  | 0, _ => []
  | Nat.succ k, r =>
    (sem.sampleWithRng dist r).1 :: sampleStream sem dist k (sem.sampleWithRng dist r).2

/-- Modelled from the spec: the construction rule of section 4.2 with the ITL
draws taken as token_count successive draws of one PRNG stream continuing
after the TTFT draw, rather than repetitions of a single draw. This is the
reading of claim C5; the source differs. -/
def specGenerateSchedule {D R V : Type} (sem : SamplerSemantics D R V)
    (sim : LatencySimulator D) (entropy : R) (tokenCount : Nat)
    (profileName : Option String) : LatencySchedule :=
  if !sim.config.enabled then
    { ttft := 0, overhead := 0, tokenDelays := List.replicate tokenCount 0 }
  else
    match sim.config.resolveProfile profileName with
    | none => { ttft := 0, overhead := 0, tokenDelays := List.replicate tokenCount 0 }
    | some p =>
      let r0 := (sim.createSampler sem entropy).rng
      let ttftDraw := sem.sampleWithRng p.ttft r0
      { ttft := sem.toMicros ttftDraw.1
        overhead := sem.overheadMul p.overheadMicros
        tokenDelays := (sampleStream sem p.itl tokenCount ttftDraw.2).map sem.toMicros }

/-- Concrete instantiation of the abstract numeric layer used to evaluate the
schedule construction on explicit inputs: the RNG state is a counter, a draw
returns the state and advances it. -/
def toySem : SamplerSemantics Unit Nat Nat :=
  { sampleWithRng := fun _ r => (r, r + 1)
    seedFromU64 := id
    toMicros := id
    overheadMul := id }

def toyProfile : LatencyProfileM Unit :=
  { ttft := (), itl := (), overheadMicros := 3 }

def toyConfig : LatencyConfigM Unit :=
  { enabled := true, profiles := [("p", toyProfile)], defaultProfileName := "p" }

def toySim : LatencySimulator Unit :=
  { config := toyConfig, rngSeed := some 7 }

def toySimDisabled : LatencySimulator Unit :=
  { config := { toyConfig with enabled := false }, rngSeed := some 7 }

theorem sampleItl_seeded_const {D R V : Type} (sem : SamplerSemantics D R V)
    (sim : LatencySimulator D) (seed : Nat) (h : sim.rngSeed = some seed)
    (e1 e2 : R) (name : Option String) :
    sim.sampleItl sem e1 name = sim.sampleItl sem e2 name := by
  unfold LatencySimulator.sampleItl LatencySimulator.createSampler
  rw [h]

/-- C5 counterexample: for the seeded simulator toySim, the schedule the code
builds for two tokens repeats one draw ([7, 7]) and differs from the
single-PRNG-stream schedule of the claim ([8, 9]). -/
theorem generate_schedule_not_one_stream :
    (toySim.generateSchedule toySem (fun _ => 0) 2 (some "p")).tokenDelays = [7, 7]
    ∧ (specGenerateSchedule toySem toySim 0 2 (some "p")).tokenDelays = [8, 9]
    ∧ toySim.generateSchedule toySem (fun _ => 0) 2 (some "p")
      ≠ specGenerateSchedule toySem toySim 0 2 (some "p") := by
  refine ⟨by decide, by decide, by decide⟩

/-- C5 as amended: for every seeded simulator, every ITL draw in
generate_schedule re-creates a sampler from the same fixed seed and samples a
cloned RNG, so all per-token delays are equal (each is the same single draw),
not successive draws of one PRNG stream. -/
theorem generate_schedule_seeded_delays_all_equal {D R V : Type}
    (sem : SamplerSemantics D R V) (sim : LatencySimulator D) (entropy : Nat → R)
    (tokenCount : Nat) (profileName : Option String) (seed : Nat)
    (h : sim.rngSeed = some seed) :
    (sim.generateSchedule sem entropy tokenCount profileName).tokenDelays
      = List.replicate tokenCount (sim.sampleItl sem (entropy 1) profileName) := by
  unfold LatencySimulator.generateSchedule
  refine List.eq_replicate_iff.mpr ⟨by simp, ?_⟩
  intro d hd
  rcases List.mem_map.mp hd with ⟨i, _, hi⟩
  rw [← hi]
  exact sampleItl_seeded_const sem sim seed h _ _ profileName

/-- Witness for the amended C5 at the concrete seeded simulator. -/
theorem generate_schedule_seeded_delays_all_equal_witness :
    (toySim.generateSchedule toySem (fun _ => 0) 3 (some "p")).tokenDelays
      = List.replicate 3 (toySim.sampleItl toySem 0 (some "p")) :=
  generate_schedule_seeded_delays_all_equal toySem toySim (fun _ => 0) 3 (some "p") 7 rfl

/-- C9: every generated schedule has exactly n token delays and its total
duration is TTFT + overhead + the sum of the delays; with latency simulation
disabled, TTFT, overhead and every delay are zero. -/
theorem generate_schedule_well_formed {D R V : Type} (sem : SamplerSemantics D R V)
    (sim : LatencySimulator D) (entropy : Nat → R) (tokenCount : Nat)
    (profileName : Option String) :
    (sim.generateSchedule sem entropy tokenCount profileName).tokenDelays.length = tokenCount
    ∧ (sim.generateSchedule sem entropy tokenCount profileName).totalDuration
      = (sim.generateSchedule sem entropy tokenCount profileName).ttft
        + (sim.generateSchedule sem entropy tokenCount profileName).overhead
        + ((sim.generateSchedule sem entropy tokenCount profileName).tokenDelays).sum
    ∧ (sim.config.enabled = false →
        (sim.generateSchedule sem entropy tokenCount profileName).ttft = 0
        ∧ (sim.generateSchedule sem entropy tokenCount profileName).overhead = 0
        ∧ ∀ d ∈ (sim.generateSchedule sem entropy tokenCount profileName).tokenDelays,
            d = 0) := by
  refine ⟨?_, rfl, ?_⟩
  · simp [LatencySimulator.generateSchedule]
  · intro hdis
    refine ⟨?_, ?_, ?_⟩
    · simp [LatencySimulator.generateSchedule, LatencySimulator.sampleTtft, hdis]
    · simp [LatencySimulator.generateSchedule, LatencySimulator.overheadOf, hdis]
    · intro d hd
      simp only [LatencySimulator.generateSchedule] at hd
      rcases List.mem_map.mp hd with ⟨i, _, hi⟩
      rw [← hi]
      simp [LatencySimulator.sampleItl, hdis]

/-- Witness for C9 at a disabled concrete simulator. -/
theorem generate_schedule_well_formed_witness :
    (toySimDisabled.generateSchedule toySem (fun _ => 0) 4 none).tokenDelays.length = 4
    ∧ (toySimDisabled.generateSchedule toySem (fun _ => 0) 4 none).ttft = 0
    ∧ (toySimDisabled.generateSchedule toySem (fun _ => 0) 4 none).overhead = 0 := by
  have h := generate_schedule_well_formed toySem toySimDisabled (fun _ => 0) 4 none
  exact ⟨h.1, (h.2.2 rfl).1, (h.2.2 rfl).2.1⟩

/-! ## Messages and requests (src/src/types/messages.rs, request.rs)

Request fields that the engine paths under verification never read
(penalties, logit_bias, tools, response_format, seed, logprobs, user, stop)
are omitted. Temperatures and probabilities (f32/f64) are rationals. String
length is UTF-8 byte length, as in Rust. -/

inductive Role where
  | system
  | user
  | assistant
  | tool
  | function
deriving DecidableEq, Repr

inductive ContentPart where
  | text (text : String)
  | imageUrl (url : String)
deriving DecidableEq, Repr

inductive MessageContent where
  | text (t : String)
  | parts (ps : List ContentPart)
deriving DecidableEq, Repr

structure Message where
  role : Role
  content : MessageContent
deriving DecidableEq, Repr

/-- Message::text: the text body, or the concatenated text parts. -/
def Message.text (m : Message) : String :=
  match m.content with
  | .text t => t
  | .parts ps =>
    String.join (ps.filterMap fun p =>
      match p with
      | .text t => some t
      | .imageUrl _ => none)

/-- Message::estimate_tokens: (text_len / 4).max(1) with integer division. -/
def Message.estimateTokens (m : Message) : Nat :=
  max (m.text.utf8ByteSize / 4) 1

structure ChatCompletionRequest where
  model : String
  messages : List Message
  temperature : Option ℚ
  topP : Option ℚ
  n : Option Nat
  stream : Bool
  maxTokens : Option Nat
  maxCompletionTokens : Option Nat
deriving DecidableEq, Repr

/-- ChatCompletionRequest::effective_max_tokens:
max_completion_tokens.or(max_tokens).unwrap_or(4096). -/
def ChatCompletionRequest.effectiveMaxTokens (r : ChatCompletionRequest) : Nat :=
  match r.maxCompletionTokens with
  | some v => v
  | none =>
    match r.maxTokens with
    | some v => v
    | none => 4096

/-- ChatCompletionRequest::estimate_input_tokens. -/
def ChatCompletionRequest.estimateInputTokens (r : ChatCompletionRequest) : Nat :=
  (r.messages.map Message.estimateTokens).sum

/-- ChatCompletionRequest::validate. -/
def ChatCompletionRequest.validate (r : ChatCompletionRequest) : Except String Unit :=
  if r.model.isEmpty then Except.error "model is required"
  else if r.messages.isEmpty then Except.error "messages cannot be empty"
  else if (match r.temperature with
           | some t => decide (t < 0 ∨ 2 < t)
           | none => false) then
    Except.error "temperature must be between 0 and 2"
  else if (match r.topP with
           | some p => decide (p < 0 ∨ 1 < p)
           | none => false) then
    Except.error "top_p must be between 0 and 1"
  else if (match r.n with
           | some n => n == 0 || decide (128 < n)
           | none => false) then
    Except.error "n must be between 1 and 128"
  else Except.ok ()

/-! ## Errors (src/src/error.rs) -/

inductive InjectedErrorType where
  | rateLimit
  | timeout
  | serverError
  | badGateway
  | serviceUnavailable
  | authenticationError
  | invalidRequest
  | contextLengthExceeded
deriving DecidableEq, Repr

/-- Display impl of InjectedErrorType. -/
def InjectedErrorType.display : InjectedErrorType → String
  | .rateLimit => "rate_limit_exceeded"
  | .timeout => "timeout"
  | .serverError => "server_error"
  | .badGateway => "bad_gateway"
  | .serviceUnavailable => "service_unavailable"
  | .authenticationError => "authentication_error"
  | .invalidRequest => "invalid_request_error"
  | .contextLengthExceeded => "context_length_exceeded"

/-- The SimulationError variants reachable from the embedded engine paths;
retry-after durations are rational seconds. -/
inductive SimulationError where
  | modelNotFound (model : String)
  | validation (message : String) (param : Option String)
  | contextLengthExceeded (current maxLen : Nat)
  | rateLimitExceeded (retryAfterSecs : ℚ)
  | serviceUnavailable (message : String)
  | injected (errorType : InjectedErrorType) (message : String) (statusCode : Nat)
deriving DecidableEq, Repr

/-! ## Chaos engine (src/src/engine/chaos.rs, src/src/config/chaos.rs)

The uniform f64 draws of rand::thread_rng are an explicit oracle
draws : Nat → ℚ consumed left to right (index 0 for the chaos rate-limit coin
when enabled, then one index per rule that passes its filters). The breaker
map is an association list. -/

structure ErrorInjectionRule where
  name : String
  errorType : InjectedErrorType
  probability : ℚ
  models : List String
  endpoints : List String
  message : Option String
  statusCode : Option Nat
  delayMs : Option Nat
  enabled : Bool
deriving DecidableEq, Repr

/-- Substring test (Rust str::contains). -/
def strContains (hay needle : String) : Bool :=
  decide (List.IsInfix needle.toList hay.toList)

/-- ErrorInjectionRule::applies_to_model: empty filter, exact match, or the
model extending a listed name as a prefix. -/
def ErrorInjectionRule.appliesToModel (r : ErrorInjectionRule) (model : String) : Bool :=
  r.models.isEmpty || r.models.any (fun m => m == model || m.isPrefixOf model)

/-- ErrorInjectionRule::applies_to_endpoint: empty filter or substring. -/
def ErrorInjectionRule.appliesToEndpoint (r : ErrorInjectionRule) (endpoint : String) : Bool :=
  r.endpoints.isEmpty || r.endpoints.any (fun e => strContains endpoint e)

structure ModelRateLimit where
  requestsPerMinute : Nat
  tokensPerMinute : Nat
deriving DecidableEq, Repr

/-- ModelRateLimit::retry_after in rational seconds, clamped to [1, 300];
60 seconds when tokens_per_minute is zero. -/
def ModelRateLimit.retryAfter (l : ModelRateLimit) (tokensUsed : Nat) : ℚ :=
  if l.tokensPerMinute = 0 then 60
  else max 1 (min 300 ((tokensUsed : ℚ) / (l.tokensPerMinute : ℚ) * 60))

structure RateLimitChaosConfig where
  enabled : Bool
  requestsPerMinute : Nat
  tokensPerMinute : Nat
  modelLimits : List (String × ModelRateLimit)
  burstMultiplier : ℚ
deriving DecidableEq, Repr

/-- RateLimitConfig::get_limit: exact match, then prefix match, then the
defaults. -/
def RateLimitChaosConfig.getLimit (c : RateLimitChaosConfig) (model : String) :
    ModelRateLimit :=
  match (c.modelLimits.find? (fun p => p.1 == model)).map (fun p => p.2) with
  | some l => l
  | none =>
    match (c.modelLimits.find? (fun p => p.1.isPrefixOf model)).map (fun p => p.2) with
    | some l => l
    | none =>
      { requestsPerMinute := c.requestsPerMinute, tokensPerMinute := c.tokensPerMinute }

structure ChaosConfig where
  enabled : Bool
  globalProbability : ℚ
  errors : List ErrorInjectionRule
  circuitBreaker : CircuitBreakerConfig
  rateLimiting : RateLimitChaosConfig
deriving DecidableEq, Repr

/-- ChaosConfig::is_active. -/
def ChaosConfig.isActive (c : ChaosConfig) : Bool :=
  c.enabled && decide (0 < c.globalProbability)

/-- ChaosEngine mutable state: the breaker map and the request counter. -/
structure ChaosState where
  circuitBreakers : List (String × CircuitBreaker)
  requestCounter : Nat
deriving DecidableEq, Repr

/-- The breaker map key: the model id, or global when per_model is off. -/
def breakerKey (cfg : ChaosConfig) (model : String) : String :=
  if cfg.circuitBreaker.perModel then model else "global"

/-- Insert or replace a binding in the breaker map. -/
def setBreaker (l : List (String × CircuitBreaker)) (k : String) (v : CircuitBreaker) :
    List (String × CircuitBreaker) :=
  if l.any (fun p => p.1 == k) then
    l.map (fun p => if p.1 == k then (k, v) else p)
  else l ++ [(k, v)]

/-- ChaosEngine::check_circuit_breaker: look up or create the breaker for the
key, probe is_open (which may move open to half-open), store the updated
breaker, and report service-unavailable while open. -/
def ChaosState.checkCircuitBreaker (st : ChaosState) (cfg : ChaosConfig)
    (model : String) (now : Nat) : Option SimulationError × ChaosState :=
  let key := breakerKey cfg model
  let breaker :=
    match (st.circuitBreakers.find? (fun p => p.1 == key)).map (fun p => p.2) with
    | some b => b
    | none => CircuitBreaker.new cfg.circuitBreaker
  let probe := breaker.isOpen now
  let st1 := { st with circuitBreakers := setBreaker st.circuitBreakers key probe.2 }
  if probe.1 then (some (.serviceUnavailable "Circuit breaker is open"), st1)
  else (none, st1)

/-- ChaosEngine::record_failure: only an existing breaker for the key is
updated. -/
def ChaosState.recordFailureFor (st : ChaosState) (cfg : ChaosConfig)
    (model : String) (now : Nat) : ChaosState :=
  if !cfg.circuitBreaker.enabled then st
  else
    let key := breakerKey cfg model
    match (st.circuitBreakers.find? (fun p => p.1 == key)).map (fun p => p.2) with
    | some b =>
      { st with circuitBreakers := setBreaker st.circuitBreakers key (b.recordFailure now) }
    | none => st

/-- ChaosEngine::record_success: only an existing breaker for the key is
updated. -/
def ChaosState.recordSuccessFor (st : ChaosState) (cfg : ChaosConfig)
    (model : String) : ChaosState :=
  if !cfg.circuitBreaker.enabled then st
  else
    let key := breakerKey cfg model
    match (st.circuitBreakers.find? (fun p => p.1 == key)).map (fun p => p.2) with
    | some b =>
      { st with circuitBreakers := setBreaker st.circuitBreakers key b.recordSuccess }
    | none => st

/-- ChaosEngine::check_rate_limit: one uniform draw against 1/rpm (with rpm
zero the f64 quotient is infinite and the check always fires). -/
def ChaosConfig.checkRateLimit (cfg : ChaosConfig) (model : String) (u : ℚ) :
    Option SimulationError :=
  let limit := cfg.rateLimiting.getLimit model
  if limit.requestsPerMinute = 0 then
    some (.rateLimitExceeded (limit.retryAfter 1000))
  else if u * (limit.requestsPerMinute : ℚ) < 1 then
    some (.rateLimitExceeded (limit.retryAfter 1000))
  else none

/-- ChaosEngine::create_error. -/
def createChaosError (rule : ErrorInjectionRule) : SimulationError :=
  let message :=
    match rule.message with
    | some m => m
    | none => "Injected " ++ rule.errorType.display ++ " error"
  let statusCode :=
    match rule.statusCode with
    | some c => c
    | none =>
      match rule.errorType with
      | .rateLimit => 429
      | .timeout => 504
      | .serverError => 500
      | .badGateway => 502
      | .serviceUnavailable => 503
      | .authenticationError => 401
      | .invalidRequest => 400
      | .contextLengthExceeded => 400
  .injected rule.errorType message statusCode

/-- Rule loop of maybe_inject_error: skip disabled or non-matching rules
without consuming a draw; the first matching rule whose draw is below
probability times global_probability fires. -/
def findInjectedRule (globalProb : ℚ) (model endpoint : String) (draws : Nat → ℚ) :
    List ErrorInjectionRule → Nat → Option ErrorInjectionRule
  | [], _ => none
  | r :: rest, i =>
    if !r.enabled || !r.appliesToModel model || !r.appliesToEndpoint endpoint then
      findInjectedRule globalProb model endpoint draws rest i
    else if draws i < r.probability * globalProb then some r
    else findInjectedRule globalProb model endpoint draws rest (i + 1)

/-- ChaosEngine::maybe_inject_error. -/
def maybeInject (cfg : ChaosConfig) (st : ChaosState) (model endpoint : String)
    (now : Nat) (draws : Nat → ℚ) : Option SimulationError × ChaosState :=
  if !cfg.isActive then (none, st)
  else
    let st0 := { st with requestCounter := st.requestCounter + 1 }
    let cbProbe :=
      if cfg.circuitBreaker.enabled then st0.checkCircuitBreaker cfg model now
      else (none, st0)
    match cbProbe with
    | (some e, st1) => (some e, st1)
    | (none, st1) =>
      let rlResult :=
        if cfg.rateLimiting.enabled then (cfg.checkRateLimit model (draws 0), 1)
        else (none, 0)
      match rlResult.1 with
      | some e => (some e, st1)
      | none =>
        match findInjectedRule cfg.globalProbability model endpoint draws
            cfg.errors rlResult.2 with
        | some r => (some (createChaosError r), st1)
        | none => (none, st1)

/-! ## Simulation engine (src/src/engine/mod.rs)

The response generator and the embedding generator are abstracted as function
parameters (their outputs never feed back into the control flow under
verification); the UUID suffix of fresh response ids is an explicit argument;
timestamps and sleeps do not affect the returned values and are dropped. The
engine-state counters (requests, errors, latencies) are not modelled; the
chaos state is threaded explicitly. -/

structure ModelConfigM where
  contextLength : Nat
  maxOutputTokens : Nat
  supportsStreaming : Bool
  isEmbedding : Bool
  embeddingDimensions : Option Nat
  latencyProfile : Option String
deriving DecidableEq, Repr

structure SimulatorConfigM where
  models : List (String × ModelConfigM)
  chaos : ChaosConfig
deriving DecidableEq, Repr

/-- SimulationEngine::get_model_config. -/
def getModelConfig (cfg : SimulatorConfigM) (model : String) :
    Except SimulationError ModelConfigM :=
  match (cfg.models.find? (fun p => p.1 == model)).map (fun p => p.2) with
  | some mc => Except.ok mc
  | none => Except.error (.modelNotFound model)

structure Usage where
  promptTokens : Nat
  completionTokens : Nat
  totalTokens : Nat
deriving DecidableEq, Repr

def Usage.new (p c : Nat) : Usage :=
  { promptTokens := p, completionTokens := c, totalTokens := p + c }

structure ChatCompletionResponseM where
  id : String
  model : String
  content : String
  usage : Usage
deriving DecidableEq, Repr

structure StreamingResponse where
  id : String
  model : String
  tokens : List String
  schedule : LatencySchedule
  usage : Usage
deriving DecidableEq, Repr

/-- ResponseGenerator::tokenize lifted to String. -/
def tokenizeStr (text : String) : List String :=
  (tokenize text.toList).map (fun cs => String.mk cs)

/-- The token budget handed to the generator in chat_completion and
chat_completion_stream: request.effective_max_tokens().min(max_output_tokens). -/
def tokenBudget (req : ChatCompletionRequest) (mc : ModelConfigM) : Nat :=
  min req.effectiveMaxTokens mc.maxOutputTokens

/-- SimulationEngine::chat_completion: chaos probe, model lookup, request
validation, context check, then generation; returns the response and the
chaos state left behind. -/
def chatCompletion (gen : List Message → Nat → String × Nat) (uuid : String)
    (draws : Nat → ℚ) (now : Nat) (cfg : SimulatorConfigM) (st : ChaosState)
    (req : ChatCompletionRequest) :
    Except SimulationError ChatCompletionResponseM × ChaosState :=
  match maybeInject cfg.chaos st req.model "/chat/completions" now draws with
  | (some e, st1) => (.error e, st1)
  | (none, st1) =>
    match getModelConfig cfg req.model with
    | .error e => (.error e, st1)
    | .ok mc =>
      match req.validate with
      | .error msg => (.error (.validation msg none), st1)
      | .ok _ =>
        let inputTokens := req.estimateInputTokens
        if mc.contextLength < inputTokens then
          (.error (.contextLengthExceeded inputTokens mc.contextLength), st1)
        else
          let genOut := gen req.messages (tokenBudget req mc)
          (.ok { id := "chatcmpl-" ++ uuid, model := req.model,
                 content := genOut.1,
                 usage := Usage.new inputTokens genOut.2 }, st1)

/-- SimulationEngine::chat_completion_stream: as chat_completion plus the
streaming-support check, tokenization and the latency schedule. -/
def chatCompletionStream {D R V : Type} (sem : SamplerSemantics D R V)
    (lsim : LatencySimulator D) (entropy : Nat → R)
    (gen : List Message → Nat → String × Nat) (uuid : String)
    (draws : Nat → ℚ) (now : Nat) (cfg : SimulatorConfigM) (st : ChaosState)
    (req : ChatCompletionRequest) :
    Except SimulationError StreamingResponse × ChaosState :=
  match maybeInject cfg.chaos st req.model "/chat/completions" now draws with
  | (some e, st1) => (.error e, st1)
  | (none, st1) =>
    match getModelConfig cfg req.model with
    | .error e => (.error e, st1)
    | .ok mc =>
      if !mc.supportsStreaming then
        (.error (.validation ("Model " ++ req.model ++ " does not support streaming")
          (some "stream")), st1)
      else
        match req.validate with
        | .error msg => (.error (.validation msg none), st1)
        | .ok _ =>
          let inputTokens := req.estimateInputTokens
          if mc.contextLength < inputTokens then
            (.error (.contextLengthExceeded inputTokens mc.contextLength), st1)
          else
            let genOut := gen req.messages (tokenBudget req mc)
            let tokens := tokenizeStr genOut.1
            (.ok { id := "chatcmpl-" ++ uuid, model := req.model,
                   tokens := tokens,
                   schedule := lsim.generateSchedule sem entropy tokens.length
                     mc.latencyProfile,
                   usage := Usage.new inputTokens genOut.2 }, st1)

inductive EmbeddingInput where
  | single (s : String)
  | multiple (v : List String)
deriving DecidableEq, Repr

/-- EmbeddingInput::to_vec. -/
def EmbeddingInput.toVec : EmbeddingInput → List String
  | .single s => [s]
  | .multiple v => v

structure EmbeddingsRequest where
  model : String
  input : EmbeddingInput
  dimensions : Option Nat
deriving DecidableEq, Repr

structure EmbeddingsResponseM where
  model : String
  embeddings : List (List ℚ)
  totalTokens : Nat
deriving DecidableEq, Repr

/-- SimulationEngine::embeddings: chaos probe, model lookup, embedding-model
check, one generated vector per input, token total of max(1, len/4) each. -/
def embeddingsOp (genEmb : Nat → String → List ℚ) (draws : Nat → ℚ) (now : Nat)
    (cfg : SimulatorConfigM) (st : ChaosState) (req : EmbeddingsRequest) :
    Except SimulationError EmbeddingsResponseM × ChaosState :=
  match maybeInject cfg.chaos st req.model "/embeddings" now draws with
  | (some e, st1) => (.error e, st1)
  | (none, st1) =>
    match getModelConfig cfg req.model with
    | .error e => (.error e, st1)
    | .ok mc =>
      if !mc.isEmbedding then
        (.error (.validation ("Model " ++ req.model ++ " is not an embedding model")
          (some "model")), st1)
      else
        let inputs := req.input.toVec
        let dimensions := (req.dimensions.orElse (fun _ => mc.embeddingDimensions)).getD 1536
        (.ok { model := req.model,
               embeddings := inputs.map (fun i => genEmb dimensions i),
               totalTokens := (inputs.map (fun i => max (i.utf8ByteSize / 4) 1)).sum }, st1)

/-- C1 (refuted): each of the three request operations leaves the chaos state
exactly as maybe_inject_error left it — neither record_failure(model) nor
record_success(model) is ever invoked when a request terminates, whether it
succeeds or fails. -/
theorem requests_never_record_breaker_outcome {D R V : Type}
    (sem : SamplerSemantics D R V) (lsim : LatencySimulator D) (entropy : Nat → R)
    (gen : List Message → Nat → String × Nat) (genEmb : Nat → String → List ℚ)
    (uuid : String) (draws : Nat → ℚ) (now : Nat) (cfg : SimulatorConfigM)
    (st : ChaosState) (req : ChatCompletionRequest) (ereq : EmbeddingsRequest) :
    (chatCompletion gen uuid draws now cfg st req).2
      = (maybeInject cfg.chaos st req.model "/chat/completions" now draws).2
    ∧ (chatCompletionStream sem lsim entropy gen uuid draws now cfg st req).2
      = (maybeInject cfg.chaos st req.model "/chat/completions" now draws).2
    ∧ (embeddingsOp genEmb draws now cfg st ereq).2
      = (maybeInject cfg.chaos st ereq.model "/embeddings" now draws).2 := by
  refine ⟨?_, ?_, ?_⟩
  · unfold chatCompletion
    rcases h : maybeInject cfg.chaos st req.model "/chat/completions" now draws
      with ⟨oe, st1⟩
    cases oe with
    | some e => rfl
    | none =>
      cases hg : getModelConfig cfg req.model with
      | error e => rfl
      | ok mc =>
        cases hv : req.validate with
        | error m => rfl
        | ok u =>
          by_cases hc : mc.contextLength < req.estimateInputTokens <;>
            simp only [hc, if_true, if_false, reduceIte]
  · unfold chatCompletionStream
    rcases h : maybeInject cfg.chaos st req.model "/chat/completions" now draws
      with ⟨oe, st1⟩
    cases oe with
    | some e => rfl
    | none =>
      cases hg : getModelConfig cfg req.model with
      | error e => rfl
      | ok mc =>
        by_cases hs : (!mc.supportsStreaming) = true
        · simp only [hs, if_true]
        · simp only [hs, Bool.false_eq_true, if_false]
          cases hv : req.validate with
          | error m => rfl
          | ok u =>
            by_cases hc : mc.contextLength < req.estimateInputTokens <;>
              simp only [hc, if_true, if_false, reduceIte]
  · unfold embeddingsOp
    rcases h : maybeInject cfg.chaos st ereq.model "/embeddings" now draws
      with ⟨oe, st1⟩
    cases oe with
    | some e => rfl
    | none =>
      cases hg : getModelConfig cfg ereq.model with
      | error e => rfl
      | ok mc =>
        by_cases he : (!mc.isEmbedding) = true
        · simp only [he, if_true]
        · simp only [he, Bool.false_eq_true, if_false]

/-! ## C2 and C3 fixtures and theorems -/

/-- Modelled from the spec: the input-token estimate of claim C2, the sum
over messages of max(1, CEILING(text_len / 4)). The source uses integer
(floor) division instead. -/
def specEstimateTokens (m : Message) : Nat :=
  max 1 ((m.text.utf8ByteSize + 3) / 4)

/-- Modelled from the spec: per-request version of the claimed estimate. -/
def specEstimateInputTokens (r : ChatCompletionRequest) : Nat :=
  (r.messages.map specEstimateTokens).sum

/-- Modelled from the spec: the token budget of claim C3, the three-way
minimum with absent request fields defaulting to 4096. -/
def specTokenBudget (req : ChatCompletionRequest) (mc : ModelConfigM) : Nat :=
  min (min (req.maxTokens.getD 4096) (req.maxCompletionTokens.getD 4096))
    mc.maxOutputTokens

/-- Recognizer for context-length-exceeded outcomes. -/
def isContextLengthError {α : Type} : Except SimulationError α → Bool
  | .error (.contextLengthExceeded _ _) => true
  | _ => false

/-- A chaos configuration that never injects. -/
def quietChaos : ChaosConfig :=
  { enabled := false, globalProbability := 0, errors := [],
    circuitBreaker :=
      { enabled := false, failureThreshold := 5, failureWindowSecs := 60,
        recoveryTimeoutSecs := 30, successThreshold := 2, perModel := false },
    rateLimiting :=
      { enabled := false, requestsPerMinute := 1000, tokensPerMinute := 100000,
        modelLimits := [], burstMultiplier := (3 : ℚ) / 2 } }

/-- A model with context length 1, to separate the floor and ceiling
estimates. -/
def tinyModel : ModelConfigM :=
  { contextLength := 1, maxOutputTokens := 4096, supportsStreaming := true,
    isEmbedding := false, embeddingDimensions := none, latencyProfile := none }

def tinyCfg : SimulatorConfigM :=
  { models := [("gpt-4", tinyModel)], chaos := quietChaos }

def helloReq : ChatCompletionRequest :=
  { model := "gpt-4", messages := [{ role := .user, content := .text "Hello" }],
    temperature := none, topP := none, n := none, stream := false,
    maxTokens := none, maxCompletionTokens := none }

def st0 : ChaosState := { circuitBreakers := [], requestCounter := 0 }

def constGen : List Message → Nat → String × Nat := fun _ b => ("ok", b)

/-- C2 counterexample: for the five-byte message Hello the code estimates
floor(5/4) = 1 token where the claim's ceiling formula gives 2; with
context_length 1 the claim demands rejection (2 > 1) but the engine accepts
the request. -/
theorem context_estimate_counterexample :
    helloReq.estimateInputTokens = 1
    ∧ specEstimateInputTokens helloReq = 2
    ∧ tinyModel.contextLength < specEstimateInputTokens helloReq
    ∧ isContextLengthError
        (chatCompletion constGen "u" (fun _ => 0) 0 tinyCfg st0 helloReq).1 = false := by
  refine ⟨by decide, by decide, by decide, by decide⟩

/-- C2 as amended: once the chaos probe, model lookup and validation pass, the
request is rejected with context-length-exceeded exactly when the estimate
exceeds context_length, where the estimate is the sum over messages of
max(1, FLOOR(text_len / 4)). -/
theorem chat_completion_context_check
    (gen : List Message → Nat → String × Nat) (uuid : String) (draws : Nat → ℚ)
    (now : Nat) (cfg : SimulatorConfigM) (st : ChaosState)
    (req : ChatCompletionRequest) (mc : ModelConfigM)
    (h1 : (maybeInject cfg.chaos st req.model "/chat/completions" now draws).1 = none)
    (h2 : getModelConfig cfg req.model = Except.ok mc)
    (h3 : req.validate = Except.ok ()) :
    (isContextLengthError (chatCompletion gen uuid draws now cfg st req).1 = true
      ↔ mc.contextLength < req.estimateInputTokens)
    ∧ req.estimateInputTokens
      = (req.messages.map (fun m => max (m.text.utf8ByteSize / 4) 1)).sum := by
  refine ⟨?_, rfl⟩
  unfold chatCompletion
  rcases hmi : maybeInject cfg.chaos st req.model "/chat/completions" now draws
    with ⟨oe, st1⟩
  rw [hmi] at h1
  cases oe with
  | some e => exact absurd h1 (by simp)
  | none =>
    rw [h2, h3]
    by_cases hc : mc.contextLength < req.estimateInputTokens
    · simp [hc, isContextLengthError]
    · simp [hc, isContextLengthError]

/-- Witness for the amended C2 at the concrete engine run. -/
theorem chat_completion_context_check_witness :
    (isContextLengthError
        (chatCompletion constGen "u" (fun _ => 0) 0 tinyCfg st0 helloReq).1 = true
      ↔ tinyModel.contextLength < helloReq.estimateInputTokens)
    ∧ helloReq.estimateInputTokens
      = (helloReq.messages.map (fun m => max (m.text.utf8ByteSize / 4) 1)).sum :=
  chat_completion_context_check constGen "u" (fun _ => 0) 0 tinyCfg st0 helloReq
    tinyModel (by decide) (by rfl) (by rfl)

/-- A model with a large context for the budget counterexample. -/
def roomyModel : ModelConfigM :=
  { contextLength := 8192, maxOutputTokens := 4096, supportsStreaming := true,
    isEmbedding := false, embeddingDimensions := none, latencyProfile := none }

def roomyCfg : SimulatorConfigM :=
  { models := [("gpt-4", roomyModel)], chaos := quietChaos }

/-- A request that sets both max_tokens (10) and max_completion_tokens (100). -/
def bothLimitsReq : ChatCompletionRequest :=
  { model := "gpt-4", messages := [{ role := .user, content := .text "Hi" }],
    temperature := none, topP := none, n := none, stream := false,
    maxTokens := some 10, maxCompletionTokens := some 100 }

/-- C3 counterexample: with max_tokens 10 and max_completion_tokens 100 the
claimed three-way minimum is 10, but the code prefers max_completion_tokens
and hands the generator a budget of 100, observable in the completion-token
usage of the response. -/
theorem token_budget_counterexample :
    tokenBudget bothLimitsReq roomyModel = 100
    ∧ specTokenBudget bothLimitsReq roomyModel = 10
    ∧ ((chatCompletion constGen "u" (fun _ => 0) 0 roomyCfg st0 bothLimitsReq).1.map
        (fun resp => resp.usage.completionTokens)) = Except.ok 100 := by
  refine ⟨by decide, by decide, by rfl⟩

/-- C3 as amended: on the success path the generator is invoked at
tokenBudget, which equals min(m, max_output_tokens) where m is
max_completion_tokens when present, else max_tokens when present, else 4096
(max_tokens is ignored whenever max_completion_tokens is present). -/
theorem chat_completion_budget
    (gen : List Message → Nat → String × Nat) (uuid : String) (draws : Nat → ℚ)
    (now : Nat) (cfg : SimulatorConfigM) (st : ChaosState)
    (req : ChatCompletionRequest) (mc : ModelConfigM)
    (h1 : (maybeInject cfg.chaos st req.model "/chat/completions" now draws).1 = none)
    (h2 : getModelConfig cfg req.model = Except.ok mc)
    (h3 : req.validate = Except.ok ())
    (h4 : ¬ mc.contextLength < req.estimateInputTokens) :
    (chatCompletion gen uuid draws now cfg st req).1
      = Except.ok { id := "chatcmpl-" ++ uuid, model := req.model,
                    content := (gen req.messages (tokenBudget req mc)).1,
                    usage := Usage.new req.estimateInputTokens
                      (gen req.messages (tokenBudget req mc)).2 }
    ∧ tokenBudget req mc
      = min (match req.maxCompletionTokens with
             | some v => v
             | none => req.maxTokens.getD 4096) mc.maxOutputTokens := by
  constructor
  · unfold chatCompletion
    rcases hmi : maybeInject cfg.chaos st req.model "/chat/completions" now draws
      with ⟨oe, st1⟩
    rw [hmi] at h1
    cases oe with
    | some e => exact absurd h1 (by simp)
    | none =>
      rw [h2, h3]
      simp [h4]
  · unfold tokenBudget ChatCompletionRequest.effectiveMaxTokens
    cases req.maxCompletionTokens with
    | some v => rfl
    | none =>
      cases req.maxTokens with
      | some v => rfl
      | none => rfl

/-- Witness for the amended C3 at the concrete engine run. -/
theorem chat_completion_budget_witness :
    (chatCompletion constGen "u" (fun _ => 0) 0 roomyCfg st0 bothLimitsReq).1
      = Except.ok { id := "chatcmpl-u", model := bothLimitsReq.model,
                    content := (constGen bothLimitsReq.messages
                      (tokenBudget bothLimitsReq roomyModel)).1,
                    usage := Usage.new bothLimitsReq.estimateInputTokens
                      (constGen bothLimitsReq.messages
                        (tokenBudget bothLimitsReq roomyModel)).2 }
    ∧ tokenBudget bothLimitsReq roomyModel
      = min (match bothLimitsReq.maxCompletionTokens with
             | some v => v
             | none => bothLimitsReq.maxTokens.getD 4096) roomyModel.maxOutputTokens :=
  chat_completion_budget constGen "u" (fun _ => 0) 0 roomyCfg st0 bothLimitsReq
    roomyModel (by decide) (by rfl) (by rfl) (by decide)

/-! ## Streaming chunks and the Anthropic SSE renderer
(src/src/engine/mod.rs StreamingResponse::into_chunks,
src/src/server/streaming.rs create_anthropic_sse_stream)

Only the chunk fields the renderer inspects are modelled (first choice's
delta content and finish_reason, and the chunk usage); delays are Nat
microseconds and only order is at stake. The async unfold is a pure
recursion over the chunk list with the renderer's index/started/done state;
the sleep and the SSE byte framing are not modelled. -/

inductive FinishReason where
  | stop
  | length
  | contentFilter
  | toolCalls
  | functionCall
deriving DecidableEq, Repr

structure ChunkDelta where
  role : Option Role
  content : Option String
deriving DecidableEq, Repr

structure ChunkChoice where
  index : Nat
  delta : ChunkDelta
  finishReason : Option FinishReason
deriving DecidableEq, Repr

/-- ChunkChoice::role_delta. -/
def ChunkChoice.roleDelta (role : Role) (index : Nat) : ChunkChoice :=
  { index := index, delta := { role := some role, content := none }, finishReason := none }

/-- ChunkChoice::content_delta. -/
def ChunkChoice.contentDelta (content : String) (index : Nat) : ChunkChoice :=
  { index := index, delta := { role := none, content := some content }, finishReason := none }

/-- ChunkChoice::finish. -/
def ChunkChoice.finishChoice (finishReason : FinishReason) (index : Nat) : ChunkChoice :=
  { index := index, delta := { role := none, content := none },
    finishReason := some finishReason }

structure ChatCompletionChunk where
  id : String
  model : String
  choices : List ChunkChoice
  usage : Option Usage
deriving DecidableEq, Repr

/-- ChatCompletionChunk::new. -/
def ChatCompletionChunk.new (id model : String) (choices : List ChunkChoice) :
    ChatCompletionChunk :=
  { id := id, model := model, choices := choices, usage := none }

/-- ChatCompletionChunk::content_delta. -/
def ChatCompletionChunk.contentDelta (id model content : String) (index : Nat) :
    ChatCompletionChunk :=
  ChatCompletionChunk.new id model [ChunkChoice.contentDelta content index]

/-- ChatCompletionChunk::finish followed by with_usage. -/
def ChatCompletionChunk.finishWithUsage (id model : String) (fr : FinishReason)
    (index : Nat) (usage : Usage) : ChatCompletionChunk :=
  { ChatCompletionChunk.new id model [ChunkChoice.finishChoice fr index] with
      usage := some usage }

/-- StreamingResponse::into_chunks: the role chunk delayed by TTFT plus
overhead, one content chunk per token with its scheduled delay (ZERO when the
schedule is short), and the finish chunk with usage and no delay. -/
def intoChunks (r : StreamingResponse) : List (Nat × ChatCompletionChunk) :=
  [(r.schedule.ttft + r.schedule.overhead,
    ChatCompletionChunk.new r.id r.model [ChunkChoice.roleDelta .assistant 0])]
  ++ r.tokens.enum.map (fun p =>
      (r.schedule.tokenDelays.getD p.1 0,
       ChatCompletionChunk.contentDelta r.id r.model p.2 0))
  ++ [(0, ChatCompletionChunk.finishWithUsage r.id r.model .stop 0 r.usage)]

inductive AnthropicEvent where
  | messageStart (id model : String) (inputTokens : Nat)
  | ping
  | contentBlockStart
  | contentBlockDelta (text : String)
  | contentBlockStop
  | messageStop
deriving DecidableEq, Repr

/-- Loop state machine of create_anthropic_sse_stream after message_start:
an empty non-finish delta becomes a ping (index unchanged); a finish chunk
emits content_block_stop and sets done, ending the stream; at index 0 the
chunk is consumed to emit content_block_start; otherwise a
content_block_delta is emitted. An exhausted iterator emits message_stop. -/
def anthropicGo : List (Nat × ChatCompletionChunk) → Nat → List AnthropicEvent
  | [], _ => [.messageStop]
  | (_, c) :: rest, index =>
    let content := (c.choices.head?.bind (fun ch => ch.delta.content)).getD ""
    let finish := c.choices.head?.bind (fun ch => ch.finishReason)
    if content.isEmpty && finish.isNone then
      .ping :: anthropicGo rest index
    else if finish.isSome then
      [.contentBlockStop]
    else if index == 0 then
      .contentBlockStart :: anthropicGo rest (index + 1)
    else
      .contentBlockDelta content :: anthropicGo rest (index + 1)

/-- create_anthropic_sse_stream as its emitted event sequence: message_start
with the maximal prompt-token usage found among the chunks, then the loop. -/
def anthropicEvents (r : StreamingResponse) (model : String) : List AnthropicEvent :=
  let chunks := intoChunks r
  let usageIn :=
    (chunks.map (fun p => ((p.2.usage.map (fun u => u.promptTokens)).getD 0))).foldr
      max 0
  .messageStart r.id model usageIn :: anthropicGo chunks 0

/-- Modelled from the spec: the event order of claim C4 (spec section 4.6) —
message_start, content_block_start, one content_block_delta per generated
token with empty deltas replaced by a ping frame, content_block_stop at the
finish signal, and finally message_stop. -/
def specAnthropicEvents (r : StreamingResponse) (model : String) : List AnthropicEvent :=
  [.messageStart r.id model r.usage.promptTokens, .contentBlockStart]
  ++ r.tokens.map (fun t =>
      if t.isEmpty then AnthropicEvent.ping else AnthropicEvent.contentBlockDelta t)
  ++ [.contentBlockStop, .messageStop]

/-- The streaming fixture of the repository's own tests: tokens
Hello, space, World with an instant schedule and usage 10/3. -/
def exStreaming : StreamingResponse :=
  { id := "test-id", model := "gpt-4", tokens := ["Hello", " ", "World"],
    schedule := { ttft := 0, overhead := 0, tokenDelays := [0, 0, 0] },
    usage := Usage.new 10 3 }

/-- C4 (refuted): on the repository's own streaming test fixture the code
emits a ping for the leading role chunk, consumes the first token to emit
content_block_start (its delta Hello is never sent), and ends at
content_block_stop without ever emitting message_stop — not the claimed
sequence. -/
theorem anthropic_stream_event_order_bug :
    anthropicEvents exStreaming "claude-3"
      = [.messageStart "test-id" "claude-3" 10, .ping, .contentBlockStart,
         .contentBlockDelta " ", .contentBlockDelta "World", .contentBlockStop]
    ∧ anthropicEvents exStreaming "claude-3" ≠ specAnthropicEvents exStreaming "claude-3"
    ∧ specAnthropicEvents exStreaming "claude-3"
      = [.messageStart "test-id" "claude-3" 10, .contentBlockStart,
         .contentBlockDelta "Hello", .contentBlockDelta " ", .contentBlockDelta "World",
         .contentBlockStop, .messageStop] := by
  refine ⟨by decide, by decide, by decide⟩

/-! ## API-key auth middleware (src/src/security/api_key.rs,
src/src/config/security.rs)

Header values are List Char (headers that fail UTF-8 decoding, which to_str
maps to None and hence to a missing key, are not distinguished from absent
headers — exactly as in the source). The middleware outcome is the attached
ApiKeyInfo on success or the AuthError response. -/

inductive ApiKeyRole where
  | admin
  | user
  | readonly
deriving DecidableEq, Repr

inductive RateLimitTier where
  | standard
  | premium
  | admin
  | unlimited
deriving DecidableEq, Repr

structure ApiKeyEntry where
  id : String
  key : List Char
  role : ApiKeyRole
  rateLimitTier : RateLimitTier
  description : Option String
  enabled : Bool
deriving DecidableEq, Repr

structure ApiKeyConfig where
  enabled : Bool
  keys : List ApiKeyEntry
  headerName : String
  allowAnonymousHealth : Bool
deriving DecidableEq, Repr

/-- ApiKeyConfig::find_key: lookup by key-string equality. -/
def ApiKeyConfig.findKey (c : ApiKeyConfig) (k : List Char) : Option ApiKeyEntry :=
  c.keys.find? (fun e => e.key == k)

structure ApiKeyInfo where
  id : String
  role : ApiKeyRole
  tier : RateLimitTier
  anonymous : Bool
deriving DecidableEq, Repr

/-- ApiKeyInfo::anonymous. -/
def anonymousInfo : ApiKeyInfo :=
  { id := "anonymous", role := .readonly, tier := .standard, anonymous := true }

/-- ApiKeyInfo::from_entry. -/
def ApiKeyInfo.fromEntry (e : ApiKeyEntry) : ApiKeyInfo :=
  { id := e.id, role := e.role, tier := e.rateLimitTier, anonymous := false }

inductive AuthError where
  | missingHeader
  | invalidFormat
  | invalidKey
  | keyDisabled
  | insufficientPermissions (required actual : ApiKeyRole)
deriving DecidableEq, Repr

structure Headers where
  authorization : Option (List Char)
  xApiKey : Option (List Char)
deriving DecidableEq, Repr

/-- Rust str::trim_start_matches: strip every leading occurrence of the
pattern. Each strip removes at least one char, so the input length bounds the
iteration count. -/
def trimStartMatchesGo (pat : List Char) : Nat → List Char → List Char
  | 0, s => s
  | Nat.succ fuel, s =>
    if pat ≠ [] ∧ pat.isPrefixOf s then
      trimStartMatchesGo pat fuel (s.drop pat.length)
    else s

def trimStartMatchesL (pat s : List Char) : List Char :=
  trimStartMatchesGo pat s.length s

/-- extract_api_key: authorization header first, else x-api-key; accept
Bearer or bearer prefixes (stripped), or a bare value without spaces; a
value with a space and no bearer prefix yields none. -/
def extractApiKey (h : Headers) : Option (List Char) :=
  let headerVal :=
    match h.authorization with
    | some v => some v
    | none => h.xApiKey
  match headerVal with
  | none => none
  | some auth =>
    if ("Bearer ".toList).isPrefixOf auth then
      some (trimStartMatchesL "Bearer ".toList auth)
    else if ("bearer ".toList).isPrefixOf auth then
      some (trimStartMatchesL "bearer ".toList auth)
    else if !(auth.contains ' ') then some auth
    else none

/-- is_health_endpoint. -/
def isHealthEndpoint (path : String) : Bool :=
  path == "/health" || path == "/healthz" || path == "/ready" || path == "/readyz" ||
  path == "/metrics" || path == "/" || path == "/version"

/-- api_key_auth_middleware: anonymous pass-through for health paths (when
allowed) and when auth is disabled; otherwise extract, look up, and check the
enabled flag. -/
def apiKeyAuthMiddleware (config : ApiKeyConfig) (path : String) (h : Headers) :
    Except AuthError ApiKeyInfo :=
  if config.allowAnonymousHealth && isHealthEndpoint path then .ok anonymousInfo
  else if !config.enabled then .ok anonymousInfo
  else
    match extractApiKey h with
    | none => .error .missingHeader
    | some apiKey =>
      match config.findKey apiKey with
      | none => .error .invalidKey
      | some entry =>
        if !entry.enabled then .error .keyDisabled
        else .ok (ApiKeyInfo.fromEntry entry)

/-- A config with auth enabled and one enabled user key sk-test. -/
def exAuthCfg : ApiKeyConfig :=
  { enabled := true,
    keys := [{ id := "key-1", key := "sk-test".toList, role := .user,
               rateLimitTier := .standard, description := none, enabled := true }],
    headerName := "Authorization", allowAnonymousHealth := true }

/-- A present but malformed Authorization header (no bearer prefix, contains
a space). -/
def malformedHeaders : Headers :=
  { authorization := some "Basic abc".toList, xApiKey := none }

/-- C8 counterexample: a present but malformed Authorization header yields
missing-header, not the claimed invalid-format (extract_api_key collapses
malformed values into none, and AuthError::InvalidFormat is never produced). -/
theorem auth_malformed_header_counterexample :
    malformedHeaders.authorization.isSome = true
    ∧ extractApiKey malformedHeaders = none
    ∧ apiKeyAuthMiddleware exAuthCfg "/v1/chat/completions" malformedHeaders
      = Except.error AuthError.missingHeader
    ∧ apiKeyAuthMiddleware exAuthCfg "/v1/chat/completions" malformedHeaders
      ≠ Except.error AuthError.invalidFormat := by
  refine ⟨by decide, by decide, by rfl, ?_⟩
  intro hc
  rw [show apiKeyAuthMiddleware exAuthCfg "/v1/chat/completions" malformedHeaders
        = Except.error AuthError.missingHeader from rfl] at hc
  exact absurd hc (by simp)

/-- C8 as amended: with auth enabled and the path not exempt, the middleware
returns missing-header exactly when no key can be extracted (no header, or a
present but malformed one); invalid-key exactly on an extracted key with no
record; key-disabled exactly on a matched but disabled record; a matched
enabled record authenticates; and invalid-format is never returned. -/
theorem auth_middleware_outcomes (config : ApiKeyConfig) (path : String) (h : Headers)
    (henabled : config.enabled = true)
    (hnohealth : (config.allowAnonymousHealth && isHealthEndpoint path) = false) :
    (apiKeyAuthMiddleware config path h = .error .missingHeader ↔ extractApiKey h = none)
    ∧ (∀ k, extractApiKey h = some k → config.findKey k = none →
        apiKeyAuthMiddleware config path h = .error .invalidKey)
    ∧ (∀ k e, extractApiKey h = some k → config.findKey k = some e → e.enabled = false →
        apiKeyAuthMiddleware config path h = .error .keyDisabled)
    ∧ (∀ k e, extractApiKey h = some k → config.findKey k = some e → e.enabled = true →
        apiKeyAuthMiddleware config path h = .ok (ApiKeyInfo.fromEntry e))
    ∧ apiKeyAuthMiddleware config path h ≠ .error .invalidFormat := by
  have hmw : apiKeyAuthMiddleware config path h =
      (match extractApiKey h with
       | none => .error .missingHeader
       | some apiKey =>
         match config.findKey apiKey with
         | none => .error .invalidKey
         | some entry =>
           if !entry.enabled then .error .keyDisabled
           else .ok (ApiKeyInfo.fromEntry entry)) := by
    unfold apiKeyAuthMiddleware
    rw [hnohealth, henabled]
    rfl
  rw [hmw]
  cases hex : extractApiKey h with
  | none =>
    refine ⟨by simp, ?_, ?_, ?_, by simp⟩
    · intro k hk _; exact Option.noConfusion hk
    · intro k e hk _ _; exact Option.noConfusion hk
    · intro k e hk _ _; exact Option.noConfusion hk
  | some key =>
    cases hfind : config.findKey key with
    | none =>
      refine ⟨by simp [hfind], ?_, ?_, ?_, by simp [hfind]⟩
      · intro k hk hf; simp [hfind]
      · intro k e hk hfe _
        injection hk with hkk
        subst hkk
        rw [hfind] at hfe
        exact Option.noConfusion hfe
      · intro k e hk hfe _
        injection hk with hkk
        subst hkk
        rw [hfind] at hfe
        exact Option.noConfusion hfe
    | some entry =>
      by_cases hen : entry.enabled = true
      · refine ⟨by simp [hfind, hen], ?_, ?_, ?_, by simp [hfind, hen]⟩
        · intro k hk hf
          injection hk with hkk
          subst hkk
          rw [hfind] at hf
          exact Option.noConfusion hf
        · intro k e hk hfe hde
          injection hk with hkk
          subst hkk
          rw [hfind] at hfe
          injection hfe with hee
          subst hee
          rw [hen] at hde
          exact Bool.noConfusion hde
        · intro k e hk hfe _
          injection hk with hkk
          subst hkk
          rw [hfind] at hfe
          injection hfe with hee
          subst hee
          simp [hfind, hen]
      · have hen2 : entry.enabled = false := Bool.eq_false_iff.mpr hen
        refine ⟨by simp [hfind, hen2], ?_, ?_, ?_, by simp [hfind, hen2]⟩
        · intro k hk hf
          injection hk with hkk
          subst hkk
          rw [hfind] at hf
          exact Option.noConfusion hf
        · intro k e hk hfe _
          injection hk with hkk
          subst hkk
          simp [hfind, hen2]
        · intro k e hk hfe hde
          injection hk with hkk
          subst hkk
          rw [hfind] at hfe
          injection hfe with hee
          subst hee
          rw [hen2] at hde
          exact Bool.noConfusion hde

/-- Witness for the amended C8: Bearer sk-test authenticates against the
concrete config on a non-exempt path. -/
theorem auth_middleware_outcomes_witness :
    apiKeyAuthMiddleware exAuthCfg "/v1/chat/completions"
        { authorization := some "Bearer sk-test".toList, xApiKey := none }
      = Except.ok (ApiKeyInfo.fromEntry
          { id := "key-1", key := "sk-test".toList, role := .user,
            rateLimitTier := .standard, description := none, enabled := true }) :=
  (auth_middleware_outcomes exAuthCfg "/v1/chat/completions"
      { authorization := some "Bearer sk-test".toList, xApiKey := none }
      (by rfl) (by rfl)).2.2.2.1 ("sk-test".toList)
    { id := "key-1", key := "sk-test".toList, role := .user,
      rateLimitTier := .standard, description := none, enabled := true }
    (by decide) (by rfl) (by rfl)

end LlmSim
